import Mathlib

/-!
Verification development for the ffmpeg-api service (`src/index.js`).

The source file holds two variants of the same Express application:
- the "local" variant (first half of the file): downloads assets next to the
  application directory under fixed names, encodes with ffmpeg, serves the
  result as a static file `/output.mp4`;
- the "B2" variant (second half): uses a per-request temporary directory from
  `fs.mkdtempSync`, encodes with a scale/crop filter, hashes the artifact and
  uploads it to Backblaze B2, returning a public URL.

The definitions below are a shallow embedding of that code.  External effects
(network fetches, subprocess spawns/exits, object-store responses) are supplied
by an environment record; filesystem state is modelled as the list of paths the
handler has created and the list that survives to the end of the run.
Numbers are modelled with `Nat`/`ℚ` (the JavaScript engine uses IEEE doubles;
all quantities the claims speak about — durations, 3-decimal rounding,
tolerances — are treated in exact rational arithmetic).
-/

namespace FfmpegApi

/-! ### Strings, decimal rendering, paths -/

/-- Decimal digit characters of a natural number, most significant first
(the rendering used by JavaScript template interpolation of an integer). -/
def natDigits (n : Nat) : List Char :=
  if h : n < 10 then [Nat.digitChar n]
  else natDigits (n / 10) ++ [Nat.digitChar (n % 10)]
termination_by n
decreasing_by exact Nat.div_lt_self (by omega) (by omega)

/-- Decimal string of a natural number. -/
def natRepr (n : Nat) : String := String.mk (natDigits n)

/-- A single-quote character, used by the concat-plan file format
(`file 'path'`). -/
def squote : String := String.mk [Char.ofNat 39]

/-- `path.join(dir, name)` for a directory without a trailing separator. -/
def pathJoin (dir name : String) : String := dir ++ "/" ++ name

/-- `leadsWith p l` : the list `l` starts with `p`. -/
def leadsWith : List Char → List Char → Bool
  | [], _ => true
  | _ :: _, [] => false
  | a :: as, b :: bs => a = b && leadsWith as bs

/-- A path lies strictly inside directory `dir` (so `rmSync(dir, recursive)`
removes it). -/
def isUnder (dir p : String) : Bool := leadsWith (dir ++ "/").data p.data

/-! ### Duration probing (`getAudioDuration`, identical in both variants)

The code spawns `ffmpeg -i file`, accumulates the diagnostic stream, and on
exit matches it against the regular expression
`Duration:\s*(\d+):(\d+):(\d+\.\d+)`; absence of a match rejects with
"Could not parse audio duration", otherwise it resolves
`+m[1]*3600 + +m[2]*60 + +m[3]`.  The exit handler ignores the exit code. -/

/-- Numeric value of a list of decimal digit characters (`+m[i]` on a digit
string). -/
def digitsToNat (ds : List Char) : Nat :=
  ds.foldl (fun a c => 10 * a + (c.toNat - 48)) 0

/-- The JavaScript `\s` character class (ASCII whitespace plus the Unicode
space separators the class includes). -/
def isSpaceJs (c : Char) : Bool :=
  c = ' ' || c = '\t' || c = '\n' || c = '\x0b' || c = '\x0c' || c = '\r' ||
  c.toNat = 0xa0 || c.toNat = 0x1680 ||
  (0x2000 ≤ c.toNat && c.toNat ≤ 0x200a) ||
  c.toNat = 0x2028 || c.toNat = 0x2029 || c.toNat = 0x202f ||
  c.toNat = 0x205f || c.toNat = 0x3000 || c.toNat = 0xfeff

/-- Strip an expected literal character sequence from the front of the input. -/
def stripLit : List Char → List Char → Option (List Char)
  | [], cs => some cs
  | _ :: _, [] => none
  | p :: ps, c :: cs => if c = p then stripLit ps cs else none

/-- Attempt to match `Duration:\s*(\d+):(\d+):(\d+\.\d+)` at the start of the
input, returning the numeric values of the three capture groups
(`+m[1]`, `+m[2]`, `+m[3]`). -/
def matchDurationAt (cs : List Char) : Option (Nat × Nat × ℚ) :=
  match stripLit "Duration:".data cs with
  | none => none
  | some cs₁ =>
    let cs₂ := cs₁.dropWhile isSpaceJs
    let hd := cs₂.takeWhile Char.isDigit
    if hd.isEmpty then none else
    match cs₂.dropWhile Char.isDigit with
    | ':' :: cs₃ =>
      let md := cs₃.takeWhile Char.isDigit
      if md.isEmpty then none else
      match cs₃.dropWhile Char.isDigit with
      | ':' :: cs₄ =>
        let sd := cs₄.takeWhile Char.isDigit
        if sd.isEmpty then none else
        match cs₄.dropWhile Char.isDigit with
        | '.' :: cs₅ =>
          let fd := cs₅.takeWhile Char.isDigit
          if fd.isEmpty then none
          else some (digitsToNat hd, digitsToNat md,
                     (digitsToNat sd : ℚ) + (digitsToNat fd : ℚ) / (10 : ℚ) ^ fd.length)
        | _ => none
      | _ => none
    | _ => none

/-- Scan for the leftmost position at which the duration pattern matches
(the semantics of `String.prototype.match` without the global flag). -/
def findDurationAux : List Char → Option (Nat × Nat × ℚ)
  | [] => none
  | c :: cs =>
    match matchDurationAt (c :: cs) with
    | some r => some r
    | none => findDurationAux cs

/-- First duration marker of the diagnostic text, as the three numeric
capture groups. -/
def findDuration (s : String) : Option (Nat × Nat × ℚ) :=
  findDurationAux s.data

/-- The diagnostic text contains a parseable duration marker somewhere. -/
def HasMarker (s : String) : Prop :=
  ∃ pre post, s.data = pre ++ post ∧ (matchDurationAt post).isSome = true

/-- Outcome of the probe promise. -/
inductive ProbeResult where
  | resolved (secs : ℚ)
  | rejectedParse
  | rejectedSpawn (msg : String)
deriving DecidableEq

/-- `getAudioDuration`: `spawnError` is the error the subprocess emitted if it
could not be started (the `probe.on("error", reject)` path); otherwise the
exit handler runs with some `exitCode` and parses the accumulated diagnostic
stream.  The exit handler's callback takes no argument in the source, so the
result cannot depend on the exit code. -/
def getAudioDuration (spawnError : Option String) (exitCode : Nat) (stderr : String) :
    ProbeResult :=
  match spawnError with
  | some m => .rejectedSpawn m
  | none =>
    match findDuration stderr with
    | some (h, mi, s) => .resolved (h * 3600 + mi * 60 + s)
    | none => .rejectedParse

/-! ### Concat-plan building

Both variants compute `perImage = duration / images.length` and render each
image as `file '<f>'\nduration <perImage.toFixed(3)>`, joined with newlines.
The local variant additionally appends a trailing `file '<last>'` line
(lines 56-58); the B2 variant does not (lines 189-191). -/

/-- The rational value denoted by `x.toFixed(3)` for a nonnegative `x`
(round half away from zero at the third decimal; on nonnegative inputs this
coincides with Mathlib's `round`, i.e. round half up). -/
def toFixed3 (q : ℚ) : ℚ := (round (q * 1000) : ℚ) / 1000

/-- Zero-padded three-digit rendering of `n < 1000`. -/
def pad3 (n : Nat) : String :=
  (if n < 10 then "00" else if n < 100 then "0" else "") ++ natRepr n

/-- The string `x.toFixed(3)` produces for a nonnegative `x`. -/
def toFixed3Str (q : ℚ) : String :=
  let k := (round (q * 1000)).toNat
  natRepr (k / 1000) ++ "." ++ pad3 (k % 1000)

/-- The (imagePath, displayDurationSeconds) pairs of the concat plan: every
image is shown for `duration / count` seconds, rendered at 3 decimals.  This
is the pair view shared by both variants' list construction. -/
def concatPlan (imgFiles : List String) (duration : ℚ) : List (String × ℚ) :=
  imgFiles.map (fun f => (f, toFixed3 (duration / imgFiles.length)))

/-- Concat list text of the B2 variant (lines 189-191): one
`file '<f>'\nduration <d>` block per image, joined with newlines. -/
def b2ListTxt (imgFiles : List String) (duration : ℚ) : String :=
  String.intercalate "\n"
    (imgFiles.map (fun f =>
      "file " ++ squote ++ f ++ squote ++ "\n" ++ "duration "
        ++ toFixed3Str (duration / imgFiles.length)))

/-- Concat list text of the local variant (lines 56-58): the same blocks, plus
a trailing `file '<last>'` line (`imgFiles[imgFiles.length - 1]`, which is the
string "undefined" when the list is empty — unreachable after validation). -/
def localListTxt (imgFiles : List String) (duration : ℚ) : String :=
  String.intercalate "\n"
    (imgFiles.map (fun f =>
      "file " ++ squote ++ f ++ squote ++ "\n" ++ "duration "
        ++ toFixed3Str (duration / imgFiles.length)))
  ++ "\n" ++ "file " ++ squote
  ++ (imgFiles.getD (imgFiles.length - 1) "undefined") ++ squote ++ "\n"

/-! ### Encoder invocations -/

/-- The video filter of the B2 variant (line 202). -/
def scaleCropFilter : String :=
  "scale=1080:1920:force_original_aspect_ratio=increase,crop=1080:1920"

/-- Argument list of the B2 variant's ffmpeg invocation (lines 198-208). -/
def b2FfmpegArgs (concatFile audioFile outputFile : String) (duration : ℚ) :
    List String :=
  ["-y",
   "-f", "concat", "-safe", "0", "-i", concatFile,
   "-i", audioFile,
   "-vf", scaleCropFilter,
   "-c:v", "libx264",
   "-c:a", "aac",
   "-pix_fmt", "yuv420p",
   "-t", toFixed3Str duration,
   outputFile]

/-- Argument list of the local variant's ffmpeg invocation (lines 62-72). -/
def localFfmpegArgs (audioFile : String) : List String :=
  ["-y",
   "-f", "concat", "-safe", "0", "-i", "ffmpeg_input.txt",
   "-i", audioFile,
   "-vsync", "vfr",
   "-pix_fmt", "yuv420p",
   "-c:v", "libx264",
   "-c:a", "aac",
   "-shortest",
   "output.mp4"]

/-! ### Upload protocol (B2 variant, lines 216-238) -/

/-- Unreserved characters of `encodeURIComponent`. -/
def uriUnreserved (c : Char) : Bool :=
  c.isAlpha || c.isDigit || c = '-' || c = '_' || c = '.' || c = '!' ||
  c = '~' || c = '*' || c = Char.ofNat 39 || c = '(' || c = ')'

/-- Uppercase hexadecimal digit. -/
def hexUpper (n : Nat) : Char :=
  if n < 10 then Nat.digitChar n else Char.ofNat (55 + n)

/-- `%XY` escape of one byte. -/
def percentEncodeByte (b : Nat) : String :=
  "%" ++ String.mk [hexUpper (b / 16), hexUpper (b % 16)]

/-- UTF-8 bytes of a character. -/
def utf8Bytes (c : Char) : List Nat :=
  let n := c.toNat
  if n < 0x80 then [n]
  else if n < 0x800 then [0xc0 + n / 64, 0x80 + n % 64]
  else if n < 0x10000 then [0xe0 + n / 4096, 0x80 + (n / 64) % 64, 0x80 + n % 64]
  else [0xf0 + n / 262144, 0x80 + (n / 4096) % 64, 0x80 + (n / 64) % 64, 0x80 + n % 64]

/-- JavaScript `encodeURIComponent`. -/
def encodeURIComponent (s : String) : String :=
  String.join (s.data.map (fun c =>
    if uriUnreserved c then String.mk [c]
    else String.join ((utf8Bytes c).map percentEncodeByte)))

/-- Object name generated for the artifact (line 220): a fresh identifier
under the `videos/` namespace. -/
def b2FileName (uuid : String) : String := "videos/" ++ uuid ++ ".mp4"

/-- Headers of the single streamed upload request (lines 225-231). -/
def b2UploadHeaders (authToken fileName sha1 : String) (size : Nat) :
    List (String × String) :=
  [("Authorization", authToken),
   ("X-Bz-File-Name", encodeURIComponent fileName),
   ("Content-Type", "b2/x-auto"),
   ("Content-Length", natRepr size),
   ("X-Bz-Content-Sha1", sha1)]

/-- Public URL derivation (line 238). -/
def b2PublicUrl (downloadUrl bucketName fileName : String) : String :=
  downloadUrl ++ "/file/" ++ bucketName ++ "/" ++ fileName

/-! ### Request bodies and validation

`const { images, audioUrl } = req.body` destructures two fields of the parsed
JSON body; a missing field is `undefined`, modelled as `none`. -/

/-- A JSON value as produced by `express.json()`.  (JavaScript `NaN` cannot
appear in parsed JSON, so number truthiness is exactly `≠ 0`.) -/
inductive Json where
  | null
  | bool (b : Bool)
  | num (q : ℚ)
  | str (s : String)
  | arr (xs : List Json)
  | obj (fields : List (String × Json))

/-- `Array.isArray`. -/
def Json.isArray : Json → Bool
  | .arr _ => true
  | _ => false

/-- JavaScript truthiness of a JSON value. -/
def Json.truthy : Json → Bool
  | .null => false
  | .bool b => b
  | .num q => decide (q ≠ 0)
  | .str s => !s.isEmpty
  | .arr _ => true
  | .obj _ => true

/-- Truthiness of a possibly-absent field (`undefined` is falsy). -/
def jsonTruthy : Option Json → Bool
  | none => false
  | some j => j.truthy

/-- The rejection test `!Array.isArray(images) || images.length === 0`
(identical in both variants, lines 39 and 167). -/
def imagesInvalid : Option Json → Bool
  | some (.arr xs) => xs.isEmpty
  | _ => true

/-- Number of elements of the `images` array (only reached when validation
passed, i.e. the field is a non-empty array). -/
def imagesLength : Option Json → Nat
  | some (.arr xs) => xs.length
  | _ => 0

/-! ### Pipeline runs

The environment records supply every external outcome (network, subprocesses,
object storage); the run functions below mirror the handlers' control flow and
track which paths were created on disk, which survive to the end of the
request, and how many times the cleanup block ran. -/

/-- Outcome of one `downloadFile` call: success creates the destination file;
failure rejects with the thrown message (`Failed to download ...` on a
non-success status, or the transport error), possibly leaving a partially
written file when the stream broke mid-transfer. -/
inductive FetchResult where
  | ok
  | fail (msg : String) (leavesFile : Bool)
deriving DecidableEq

/-- Pipeline stages, recorded in the order the code enters them. -/
inductive Stage where
  | fetch | probe | plan | encode | upload | hash
deriving DecidableEq

/-- The `img${i}.jpg` basename. -/
def imgName (i : Nat) : String := "img" ++ natRepr i ++ ".jpg"

/-- Sequential download loop of the B2 variant (lines 181-183): a failure at
index `i` stops the loop, leaving the earlier files (and possibly a partial
current file) on disk.  Oracle entries missing from the result list default to
success.  Returns the created files and the first error. -/
def fetchLoop : List String → List FetchResult → List String × Option String
  | [], _ => ([], none)
  | p :: ps, [] =>
    let r := fetchLoop ps []
    (p :: r.1, r.2)
  | p :: ps, .ok :: rs =>
    let r := fetchLoop ps rs
    (p :: r.1, r.2)
  | p :: _, .fail m leaves :: _ => (if leaves then [p] else [], some m)

/-- Concurrent download fan-out of the local variant (`Promise.all`, line 51):
every download runs to completion regardless of the others, so each successful
file is on disk even when a sibling failed; the promise rejects with a failing
download's error (determinized here to the first failing index). -/
def fetchPar : List String → List FetchResult → List String × Option String
  | [], _ => ([], none)
  | p :: ps, [] =>
    let r := fetchPar ps []
    (p :: r.1, r.2)
  | p :: ps, .ok :: rs =>
    let r := fetchPar ps rs
    (p :: r.1, r.2)
  | p :: ps, .fail m leaves :: rs =>
    let r := fetchPar ps rs
    (if leaves then p :: r.1 else r.1, some m)

/-- HTTP response of the handler. -/
structure HttpResponse where
  status : Nat
  errorMsg : Option String
  videoUrl : Option String
deriving DecidableEq

/-- Observable result of one request: the response, the file/directory traces
(created during the run, and still existing when the run ends), the number of
times the cleanup block ran and what the pipeline did. -/
structure RunResult where
  response : HttpResponse
  filesCreated : List String
  dirsCreated : List String
  files : List String
  dirs : List String
  releaseCalls : Nat
  stages : List Stage
  encoderArgs : Option (List String)
  planText : Option String
  uploadHeaders : Option (List (String × String))
deriving DecidableEq

/-- External outcomes for one B2-variant request.  `tmpDir` is the directory
`fs.mkdtempSync` returned (unique per call by its contract). -/
structure B2Env where
  tmpDir : String
  audioFetch : FetchResult
  imageFetch : List FetchResult
  probeSpawnError : Option String
  probeExitCode : Nat
  probeStderr : String
  encodeSpawnFails : Bool
  encodeSpawnErrMsg : String
  encodeExitCode : Nat
  authorizeOk : Bool
  authorizeErrMsg : String
  downloadUrl : String
  getUploadUrlOk : Bool
  getUploadUrlErrMsg : String
  uploadAuthToken : String
  uuid : String
  hashOk : Bool
  hashErrMsg : String
  sha1 : String
  outputSize : Nat
  uploadOk : Bool
  uploadStatusText : String
  bucketName : String

/-- Trace of the B2 variant's `try` block: files created, stages entered, the
encoder invocation and plan text when reached, the upload headers when the
streamed request was issued, and either the public URL or the caught error. -/
structure B2Trace where
  created : List String
  stages : List Stage
  encoderArgs : Option (List String)
  planText : Option String
  uploadHeaders : Option (List (String × String))
  outcome : Except String String

/-- The upload block of the B2 variant (lines 216-238): authorize, obtain the
upload target, hash the artifact, issue the streamed upload request.  Returns
the stages entered inside the block, the headers of the upload request when it
was issued, and either the error or the derived public URL.  (Stage order
follows the code: the hash is computed between obtaining the upload target and
issuing the streamed request.) -/
def b2UploadPhase (env : B2Env) :
    List Stage × Option (List (String × String)) × Except String String :=
  if !env.authorizeOk then ([.upload], none, .error env.authorizeErrMsg)
  else if !env.getUploadUrlOk then ([.upload], none, .error env.getUploadUrlErrMsg)
  else if !env.hashOk then ([.upload, .hash], none, .error env.hashErrMsg)
  else
    let headers :=
      b2UploadHeaders env.uploadAuthToken (b2FileName env.uuid) env.sha1 env.outputSize
    if !env.uploadOk then
      ([.upload, .hash], some headers,
       .error ("B2 upload failed: " ++ env.uploadStatusText))
    else
      ([.upload, .hash], some headers,
       .ok (b2PublicUrl env.downloadUrl env.bucketName (b2FileName env.uuid)))

/-- The body of the B2 variant's `try` block (lines 178-245), for `n` images. -/
def b2Pipeline (n : Nat) (env : B2Env) : B2Trace :=
  let t := env.tmpDir
  let audioFile := pathJoin t "audio.mp3"
  let imgFiles := (List.range n).map (fun i => pathJoin t (imgName i))
  let concatFile := pathJoin t "ffmpeg_input.txt"
  let outputFile := pathJoin t "output.mp4"
  match env.audioFetch with
  | .fail m leaves =>
    ⟨if leaves then [audioFile] else [], [.fetch], none, none, none, .error m⟩
  | .ok =>
    let fr := fetchLoop imgFiles env.imageFetch
    match fr.2 with
    | some m => ⟨audioFile :: fr.1, [.fetch], none, none, none, .error m⟩
    | none =>
      match getAudioDuration env.probeSpawnError env.probeExitCode env.probeStderr with
      | .rejectedSpawn m =>
        ⟨audioFile :: fr.1, [.fetch, .probe], none, none, none, .error m⟩
      | .rejectedParse =>
        ⟨audioFile :: fr.1, [.fetch, .probe], none, none, none,
         .error "Could not parse audio duration"⟩
      | .resolved duration =>
        let planText := b2ListTxt imgFiles duration
        let created := audioFile :: fr.1 ++ [concatFile]
        let args := b2FfmpegArgs concatFile audioFile outputFile duration
        if env.encodeSpawnFails then
          ⟨created, [.fetch, .probe, .plan, .encode], some args, some planText, none,
           .error env.encodeSpawnErrMsg⟩
        else if env.encodeExitCode = 0 then
          let up := b2UploadPhase env
          ⟨created ++ [outputFile], [.fetch, .probe, .plan, .encode] ++ up.1,
           some args, some planText, up.2.1, up.2.2⟩
        else
          ⟨created, [.fetch, .probe, .plan, .encode], some args, some planText, none,
           .error ("ffmpeg exited " ++ natRepr env.encodeExitCode)⟩

/-- Effect of `fs.rmSync(tmpDir, { recursive: true, force: true })`: every
path inside `tmpDir` is removed. -/
def b2Cleanup (tmpDir : String) (files : List String) : List String :=
  files.filter (fun p => !isUnder tmpDir p)

/-- The B2 variant's `/generate-video` handler (lines 164-253).  Both the
success path (line 241) and the catch handler (line 250) remove the workspace
before responding, so every post-validation run has exactly one cleanup. -/
def runB2 (images audioUrl : Option Json) (env : B2Env) : RunResult :=
  if imagesInvalid images then
    ⟨⟨400, some "`images` must be a non-empty array", none⟩,
     [], [], [], [], 0, [], none, none, none⟩
  else if !jsonTruthy audioUrl then
    ⟨⟨400, some "`audioUrl` is required", none⟩,
     [], [], [], [], 0, [], none, none, none⟩
  else
    let tr := b2Pipeline (imagesLength images) env
    let remaining := b2Cleanup env.tmpDir tr.created
    match tr.outcome with
    | .ok url =>
      ⟨⟨200, none, some url⟩, tr.created, [env.tmpDir], remaining, [], 1,
       tr.stages, tr.encoderArgs, tr.planText, tr.uploadHeaders⟩
    | .error m =>
      ⟨⟨500, some m, none⟩, tr.created, [env.tmpDir], remaining, [], 1,
       tr.stages, tr.encoderArgs, tr.planText, tr.uploadHeaders⟩

/-- External outcomes for one local-variant request. -/
structure LocalEnv where
  audioFetch : FetchResult
  imageFetch : List FetchResult
  probeSpawnError : Option String
  probeExitCode : Nat
  probeStderr : String
  encodeSpawnFails : Bool
  encodeExitCode : Nat

/-- The local variant's `/generate-video` handler (lines 37-92).  The audio
file lives in `__dirname` (`dirname` here); image files, the concat list and
the output use bare relative names.  Only the ffmpeg `exit` handler (lines
77-87) unlinks the working files: the `catch` handler (lines 88-91) and the
spawn-`error` handler (line 75) respond without any cleanup, and `output.mp4`
is never unlinked. -/
def runLocal (dirname : String) (images audioUrl : Option Json) (env : LocalEnv) :
    RunResult :=
  if imagesInvalid images then
    ⟨⟨400, some "Send an array of image URLs in `images`", none⟩,
     [], [], [], [], 0, [], none, none, none⟩
  else if !jsonTruthy audioUrl then
    ⟨⟨400, some "Send an `audioUrl` in the body", none⟩,
     [], [], [], [], 0, [], none, none, none⟩
  else
    let n := imagesLength images
    let audioFile := pathJoin dirname "audio.mp3"
    let imgFiles := (List.range n).map imgName
    match env.audioFetch with
    | .fail m leaves =>
      let created := if leaves then [audioFile] else []
      ⟨⟨500, some m, none⟩, created, [], created, [], 0, [.fetch], none, none, none⟩
    | .ok =>
      let fr := fetchPar imgFiles env.imageFetch
      match fr.2 with
      | some m =>
        let created := audioFile :: fr.1
        ⟨⟨500, some m, none⟩, created, [], created, [], 0, [.fetch], none, none, none⟩
      | none =>
        match getAudioDuration env.probeSpawnError env.probeExitCode env.probeStderr with
        | .rejectedSpawn m =>
          let created := audioFile :: fr.1
          ⟨⟨500, some m, none⟩, created, [], created, [], 0, [.fetch, .probe],
           none, none, none⟩
        | .rejectedParse =>
          let created := audioFile :: fr.1
          ⟨⟨500, some "Could not parse audio duration", none⟩, created, [], created,
           [], 0, [.fetch, .probe], none, none, none⟩
        | .resolved duration =>
          let planText := localListTxt imgFiles duration
          let created := audioFile :: fr.1 ++ ["ffmpeg_input.txt"]
          let args := localFfmpegArgs audioFile
          if env.encodeSpawnFails then
            ⟨⟨500, some "ffmpeg spawn failed", none⟩, created, [], created, [], 0,
             [.fetch, .probe, .plan, .encode], some args, some planText, none⟩
          else
            let removed := "ffmpeg_input.txt" :: audioFile :: imgFiles
            if env.encodeExitCode = 0 then
              let createdAll := created ++ ["output.mp4"]
              ⟨⟨200, none, some "/output.mp4"⟩, createdAll, [],
               createdAll.filter (fun p => !removed.contains p), [], 1,
               [.fetch, .probe, .plan, .encode], some args, some planText, none⟩
            else
              ⟨⟨500, some ("ffmpeg exited " ++ natRepr env.encodeExitCode), none⟩,
               created, [], created.filter (fun p => !removed.contains p), [], 1,
               [.fetch, .probe, .plan, .encode], some args, some planText, none⟩

/-- The working paths of one B2-variant request (lines 173-176). -/
def b2RequestPaths (tmpDir : String) (n : Nat) : List String :=
  pathJoin tmpDir "audio.mp3" :: pathJoin tmpDir "ffmpeg_input.txt" ::
  pathJoin tmpDir "output.mp4" ::
  (List.range n).map (fun i => pathJoin tmpDir (imgName i))

/-- The working paths of one local-variant request (lines 46-59): the audio
file lives in the application directory, the rest at fixed relative names —
identical for every request. -/
def localRequestPaths (dirname : String) (n : Nat) : List String :=
  pathJoin dirname "audio.mp3" :: "ffmpeg_input.txt" :: "output.mp4" ::
  (List.range n).map imgName

/-! ### Sample inputs used by witnesses and counterexamples -/

/-- A well-formed request body's `images` field: two image URLs. -/
def sampleImages : Option Json :=
  some (.arr [.str "http://x/a.jpg", .str "http://x/b.jpg"])

/-- A well-formed request body's `audioUrl` field. -/
def sampleAudioUrl : Option Json := some (.str "http://x/a.mp3")

/-- A representative ffmpeg diagnostic stream. -/
def sampleStderr : String :=
  "size=N/A\n  Duration: 00:01:05.04, start: 0.000000, bitrate: 128 kb/s"

/-- A B2-variant environment in which every external step succeeds. -/
def sampleB2Env : B2Env where
  tmpDir := "/tmp/video-abc123"
  audioFetch := .ok
  imageFetch := [.ok, .ok]
  probeSpawnError := none
  probeExitCode := 1
  probeStderr := "size=N/A\n  Duration: 00:00:10.00, start: 0.000000, bitrate: 128 kb/s"
  encodeSpawnFails := false
  encodeSpawnErrMsg := "spawn ENOENT"
  encodeExitCode := 0
  authorizeOk := true
  authorizeErrMsg := ""
  downloadUrl := "https://f000.backblazeb2.com"
  getUploadUrlOk := true
  getUploadUrlErrMsg := ""
  uploadAuthToken := "token-1"
  uuid := "0000-1111"
  hashOk := true
  hashErrMsg := ""
  sha1 := "da39a3ee5e6b4b0d"
  outputSize := 2048
  uploadOk := true
  uploadStatusText := "OK"
  bucketName := "my-bucket"

/-- A local-variant environment in which every external step succeeds. -/
def sampleLocalEnv : LocalEnv where
  audioFetch := .ok
  imageFetch := [.ok, .ok]
  probeSpawnError := none
  probeExitCode := 1
  probeStderr := "size=N/A\n  Duration: 00:00:10.00, start: 0.000000, bitrate: 128 kb/s"
  encodeSpawnFails := false
  encodeExitCode := 0

/-- A local-variant environment in which the second image download fails with
a non-success status while the first succeeded. -/
def c1LocalEnv : LocalEnv where
  audioFetch := .ok
  imageFetch := [.ok, .fail "Failed to download http://x/b.jpg: Not Found" false]
  probeSpawnError := none
  probeExitCode := 1
  probeStderr := ""
  encodeSpawnFails := false
  encodeExitCode := 0

/-- The all-success environment with the encoder exiting 1 instead. -/
def c4Env : B2Env := { sampleB2Env with encodeExitCode := 1 }

/-- A run was rejected by input validation: status 400 with an error message,
nothing created on disk, no pipeline stage entered, no cleanup needed. -/
def Rejected400 (r : RunResult) : Prop :=
  r.response.status = 400 ∧ r.response.errorMsg.isSome = true ∧
  r.filesCreated = [] ∧ r.dirsCreated = [] ∧ r.stages = [] ∧ r.releaseCalls = 0

/-! ### Helper lemmas -/

theorem matchDurationAt_nil : matchDurationAt [] = none := rfl

theorem findDurationAux_isSome_iff (cs : List Char) :
    (findDurationAux cs).isSome = true ↔
      ∃ pre post, cs = pre ++ post ∧ (matchDurationAt post).isSome = true := by
  induction cs with
  | nil =>
    simp only [findDurationAux, Option.isSome_none, Bool.false_eq_true, false_iff]
    rintro ⟨pre, post, h1, h2⟩
    have hpost : post = [] := (List.append_eq_nil.mp (Eq.symm h1)).2
    rw [hpost, matchDurationAt_nil] at h2
    simp at h2
  | cons c cs ih =>
    simp only [findDurationAux]
    cases hm : matchDurationAt (c :: cs) with
    | some r =>
      simp only [Option.isSome_some, true_iff]
      exact ⟨[], c :: cs, rfl, by rw [hm]; rfl⟩
    | none =>
      simp only []
      rw [ih]
      constructor
      · rintro ⟨pre, post, h1, h2⟩
        exact ⟨c :: pre, post, by rw [h1]; rfl, h2⟩
      · rintro ⟨pre, post, h1, h2⟩
        cases pre with
        | nil =>
          simp only [List.nil_append] at h1
          rw [← h1, hm] at h2
          simp at h2
        | cons p ps =>
          rw [List.cons_append] at h1
          exact ⟨ps, post, (List.cons.injEq _ _ _ _ ▸ h1).2, h2⟩

theorem leadsWith_append (l r : List Char) : leadsWith l (l ++ r) = true := by
  induction l with
  | nil => rfl
  | cons a as ih => simpa [leadsWith] using ih

theorem isUnder_pathJoin (t f : String) : isUnder t (pathJoin t f) = true := by
  have h : (pathJoin t f).data = (t ++ "/").data ++ f.data := String.data_append _ _
  show leadsWith (t ++ "/").data (pathJoin t f).data = true
  rw [h]
  exact leadsWith_append _ _

theorem b2Cleanup_eq_nil {t : String} {l : List String}
    (h : ∀ p ∈ l, isUnder t p = true) : b2Cleanup t l = [] := by
  rw [b2Cleanup, List.filter_eq_nil_iff]
  intro p hp
  simp [h p hp]

theorem mem_fetchLoop {p : String} :
    ∀ (ps : List String) (rs : List FetchResult), p ∈ (fetchLoop ps rs).1 → p ∈ ps
  | [], rs, hp => by simp [fetchLoop] at hp
  | q :: qs, [], hp => by
    simp only [fetchLoop] at hp
    rcases List.mem_cons.mp hp with rfl | hp
    · exact List.mem_cons_self _ _
    · exact List.mem_cons_of_mem _ (mem_fetchLoop qs [] hp)
  | q :: qs, .ok :: rs, hp => by
    simp only [fetchLoop] at hp
    rcases List.mem_cons.mp hp with rfl | hp
    · exact List.mem_cons_self _ _
    · exact List.mem_cons_of_mem _ (mem_fetchLoop qs rs hp)
  | q :: qs, .fail m leaves :: rs, hp => by
    cases leaves with
    | true =>
      simp [fetchLoop] at hp
      simp [hp]
    | false => simp [fetchLoop] at hp

theorem mem_fetchPar {p : String} :
    ∀ (ps : List String) (rs : List FetchResult), p ∈ (fetchPar ps rs).1 → p ∈ ps
  | [], rs, hp => by simp [fetchPar] at hp
  | q :: qs, [], hp => by
    simp only [fetchPar] at hp
    rcases List.mem_cons.mp hp with rfl | hp
    · exact List.mem_cons_self _ _
    · exact List.mem_cons_of_mem _ (mem_fetchPar qs [] hp)
  | q :: qs, .ok :: rs, hp => by
    simp only [fetchPar] at hp
    rcases List.mem_cons.mp hp with rfl | hp
    · exact List.mem_cons_self _ _
    · exact List.mem_cons_of_mem _ (mem_fetchPar qs rs hp)
  | q :: qs, .fail m leaves :: rs, hp => by
    cases leaves with
    | true =>
      simp [fetchPar] at hp
      rcases hp with rfl | hp
      · exact List.mem_cons_self _ _
      · exact List.mem_cons_of_mem _ (mem_fetchPar qs rs hp)
    | false =>
      simp [fetchPar] at hp
      exact List.mem_cons_of_mem _ (mem_fetchPar qs rs hp)

theorem b2Pipeline_created_under (n : Nat) (env : B2Env) :
    ∀ p ∈ (b2Pipeline n env).created, isUnder env.tmpDir p = true := by
  intro p hp
  have himg : ∀ q,
      q ∈ (fetchLoop ((List.range n).map fun i => pathJoin env.tmpDir (imgName i))
            env.imageFetch).1 →
      isUnder env.tmpDir q = true := by
    intro q hq
    rcases List.mem_map.mp (mem_fetchLoop _ _ hq) with ⟨i, _, rfl⟩
    exact isUnder_pathJoin _ _
  rcases haf : env.audioFetch with _ | ⟨m, lv⟩
  · rcases hl : (fetchLoop ((List.range n).map fun i => pathJoin env.tmpDir (imgName i))
        env.imageFetch).2 with _ | m
    · rcases hpr : getAudioDuration env.probeSpawnError env.probeExitCode
          env.probeStderr with d | _ | m
      · cases hsp : env.encodeSpawnFails with
        | true =>
          simp only [b2Pipeline, haf, hl, hpr, hsp, if_true] at hp
          rcases List.mem_cons.mp hp with rfl | hp
          · exact isUnder_pathJoin _ _
          · rcases List.mem_append.mp hp with hp | hp
            · exact himg p hp
            · rcases List.mem_singleton.mp hp with rfl
              exact isUnder_pathJoin _ _
        | false =>
          by_cases he : env.encodeExitCode = 0 <;>
            simp only [b2Pipeline, haf, hl, hpr, hsp, he, Bool.false_eq_true,
              if_false, if_true, ite_true, ite_false] at hp <;>
          · rcases List.mem_cons.mp hp with rfl | hp
            · exact isUnder_pathJoin _ _
            · rcases List.mem_append.mp hp with hp | hp
              · first
                | exact himg p hp
                | (rcases List.mem_append.mp hp with hp | hp
                   · exact himg p hp
                   · rcases List.mem_singleton.mp hp with rfl
                     exact isUnder_pathJoin _ _)
              · rcases List.mem_singleton.mp hp with rfl
                exact isUnder_pathJoin _ _
      · simp only [b2Pipeline, haf, hl, hpr] at hp
        rcases List.mem_cons.mp hp with rfl | hp
        · exact isUnder_pathJoin _ _
        · exact himg p hp
      · simp only [b2Pipeline, haf, hl, hpr] at hp
        rcases List.mem_cons.mp hp with rfl | hp
        · exact isUnder_pathJoin _ _
        · exact himg p hp
    · simp only [b2Pipeline, haf, hl] at hp
      rcases List.mem_cons.mp hp with rfl | hp
      · exact isUnder_pathJoin _ _
      · exact himg p hp
  · simp only [b2Pipeline, haf] at hp
    cases lv with
    | true =>
      rcases List.mem_singleton.mp (by simpa using hp) with rfl
      exact isUnder_pathJoin _ _
    | false => simp at hp

/-- Every post-validation B2 run removes the workspace exactly once and leaves
no file and no directory behind. -/
theorem runB2_valid_clean (images audioUrl : Option Json) (env : B2Env)
    (h₁ : imagesInvalid images = false) (h₂ : jsonTruthy audioUrl = true) :
    (runB2 images audioUrl env).releaseCalls = 1 ∧
    (runB2 images audioUrl env).files = [] ∧
    (runB2 images audioUrl env).dirs = [] ∧
    (runB2 images audioUrl env).dirsCreated = [env.tmpDir] := by
  have hc := b2Cleanup_eq_nil (b2Pipeline_created_under (imagesLength images) env)
  cases ho : (b2Pipeline (imagesLength images) env).outcome <;>
    simp [runB2, h₁, h₂, ho, hc]

theorem stringDataInj {s₁ s₂ : String} (h : s₁.data = s₂.data) : s₁ = s₂ := by
  cases s₁
  cases s₂
  congr 1

theorem pathJoin_data (d f : String) :
    (pathJoin d f).data = d.data ++ '/' :: f.data := by
  show ((d ++ "/") ++ f).data = _
  rw [String.data_append, String.data_append]
  simp

theorem no_slash_split :
    ∀ (a₁ : List Char) {b₁ a₂ b₂ : List Char}, '/' ∉ a₁ → '/' ∉ a₂ →
      a₁ ++ '/' :: b₁ = a₂ ++ '/' :: b₂ → a₁ = a₂ ∧ b₁ = b₂ := by
  intro a₁
  induction a₁ with
  | nil =>
    intro b₁ a₂ b₂ _ h₂ h
    cases a₂ with
    | nil => simpa using h
    | cons c cs =>
      simp only [List.nil_append, List.cons_append, List.cons.injEq] at h
      exact absurd (List.mem_cons.mpr (Or.inl h.1)) h₂
  | cons c cs ih =>
    intro b₁ a₂ b₂ h₁ h₂ h
    cases a₂ with
    | nil =>
      simp only [List.cons_append, List.nil_append, List.cons.injEq] at h
      exact absurd (List.mem_cons.mpr (Or.inl h.1.symm)) h₁
    | cons c' cs' =>
      simp only [List.cons_append, List.cons.injEq] at h
      have hrec := ih (fun hm => h₁ (List.mem_cons_of_mem _ hm))
        (fun hm => h₂ (List.mem_cons_of_mem _ hm)) h.2
      exact ⟨by rw [h.1, hrec.1], hrec.2⟩

/-- Splitting a joined path at its final separator is unambiguous when the
basenames are separator-free. -/
theorem pathJoin_inj {d₁ f₁ d₂ f₂ : String}
    (h₁ : '/' ∉ f₁.data) (h₂ : '/' ∉ f₂.data)
    (h : pathJoin d₁ f₁ = pathJoin d₂ f₂) : d₁ = d₂ ∧ f₁ = f₂ := by
  have hd : d₁.data ++ '/' :: f₁.data = d₂.data ++ '/' :: f₂.data := by
    rw [← pathJoin_data, ← pathJoin_data, h]
  have hrev : f₁.data.reverse ++ '/' :: d₁.data.reverse
      = f₂.data.reverse ++ '/' :: d₂.data.reverse := by
    have := congrArg List.reverse hd
    simpa [List.reverse_append] using this
  have hs := no_slash_split f₁.data.reverse
    (by simpa using h₁) (by simpa using h₂) hrev
  refine ⟨stringDataInj ?_, stringDataInj ?_⟩
  · exact List.reverse_injective hs.2
  · exact List.reverse_injective hs.1

theorem pathJoin_ne {s : String} (t f : String) (hs : '/' ∉ s.data) :
    pathJoin t f ≠ s := by
  intro h
  apply hs
  rw [← h, pathJoin_data]
  exact List.mem_append.mpr (Or.inr (List.mem_cons_self _ _))

theorem natDigits_all (n : Nat) :
    ∀ c ∈ natDigits n, ∃ d, d < 10 ∧ c = Nat.digitChar d := by
  induction n using Nat.strong_induction_on with
  | _ n ih =>
    rw [natDigits]
    split
    · intro c hc
      rcases List.mem_singleton.mp hc with rfl
      exact ⟨n, by omega, rfl⟩
    · intro c hc
      rcases List.mem_append.mp hc with hc | hc
      · exact ih (n / 10) (Nat.div_lt_self (by omega) (by omega)) c hc
      · rcases List.mem_singleton.mp hc with rfl
        exact ⟨n % 10, Nat.mod_lt _ (by omega), rfl⟩

theorem digitChar_ne_slash {d : Nat} (hd : d < 10) : Nat.digitChar d ≠ '/' := by
  interval_cases d <;> decide

theorem natRepr_no_slash (n : Nat) : '/' ∉ (natRepr n).data := by
  intro hm
  rcases natDigits_all n '/' hm with ⟨d, hd, hc⟩
  exact digitChar_ne_slash hd hc.symm

theorem imgName_no_slash (i : Nat) : '/' ∉ (imgName i).data := by
  intro hm
  rw [imgName, String.data_append, String.data_append] at hm
  rcases List.mem_append.mp hm with hm | hm
  · rcases List.mem_append.mp hm with hm | hm
    · simp at hm
    · exact natRepr_no_slash i hm
  · simp at hm

theorem mem_b2RequestPaths {t : String} {n : Nat} {p : String}
    (hp : p ∈ b2RequestPaths t n) :
    ∃ f, '/' ∉ f.data ∧ p = pathJoin t f := by
  rcases List.mem_cons.mp hp with rfl | hp
  · exact ⟨"audio.mp3", by decide, rfl⟩
  rcases List.mem_cons.mp hp with rfl | hp
  · exact ⟨"ffmpeg_input.txt", by decide, rfl⟩
  rcases List.mem_cons.mp hp with rfl | hp
  · exact ⟨"output.mp4", by decide, rfl⟩
  rcases List.mem_map.mp hp with ⟨i, _, rfl⟩
  exact ⟨imgName i, imgName_no_slash i, rfl⟩

/-- Rounding at the third decimal moves a value by at most half a precision
unit, in particular by at most one precision unit. -/
theorem abs_toFixed3_sub (q : ℚ) : |toFixed3 q - q| ≤ 1 / 1000 := by
  have h := abs_sub_round (q * 1000)
  have heq : toFixed3 q - q = ((round (q * 1000) : ℚ) - q * 1000) / 1000 := by
    rw [toFixed3]
    ring
  rw [heq, abs_div]
  have h1000 : |(1000 : ℚ)| = 1000 := by norm_num
  rw [h1000]
  rw [div_le_iff₀ (by norm_num : (0:ℚ) < 1000)]
  calc |(round (q * 1000) : ℚ) - q * 1000|
      = |q * 1000 - (round (q * 1000) : ℚ)| := abs_sub_comm _ _
    _ ≤ 1 / 2 := h
    _ ≤ 1 / 1000 * 1000 := by norm_num

theorem list_map_const_sum (l : List String) (c : ℚ) :
    (l.map (fun _ => c)).sum = l.length * c := by
  induction l with
  | nil => simp
  | cons a as ih =>
    simp [ih]
    ring

/-- Rendering an already-rounded value at three decimals reproduces the same
string. -/
theorem toFixed3Str_toFixed3 (q : ℚ) : toFixed3Str (toFixed3 q) = toFixed3Str q := by
  have heq : toFixed3 q * 1000 = ((round (q * 1000) : ℤ) : ℚ) := by
    rw [toFixed3]
    field_simp
  rw [toFixed3Str, toFixed3Str, heq, round_intCast]

/-! ### Claim C1 -/

/-- Claim C1 counterexample: in the local variant, a request whose second
image download fails ends with no cleanup invocation at all, and both the
downloaded audio file and the first image file still exist on disk after the
500 response — refuting the claim that after any stage failure the workspace
files are gone and release ran exactly once. -/
theorem c1_local_counterexample :
    (runLocal "/app" sampleImages sampleAudioUrl c1LocalEnv).releaseCalls = 0 ∧
    (runLocal "/app" sampleImages sampleAudioUrl c1LocalEnv).files
      = [pathJoin "/app" "audio.mp3", imgName 0] := by
  with_unfolding_all decide

/-- Claim C1 (amended): in the B2 variant, every request that passes input
validation runs the workspace removal exactly once — on the success path and
on every stage-failure path alike — and at the end of the run neither the
workspace directory (which was created) nor any file created inside it still
exists.  The local variant, by contrast, only unlinks its working files on the
encoder-exit path (see the counterexample). -/
theorem c1_b2_cleanup_invariant (images audioUrl : Option Json) (env : B2Env)
    (h₁ : imagesInvalid images = false) (h₂ : jsonTruthy audioUrl = true) :
    (runB2 images audioUrl env).releaseCalls = 1 ∧
    (runB2 images audioUrl env).files = [] ∧
    (runB2 images audioUrl env).dirs = [] ∧
    (runB2 images audioUrl env).dirsCreated = [env.tmpDir] :=
  runB2_valid_clean images audioUrl env h₁ h₂

/-- Claim C1 witness: the invariant at a concrete successful run. -/
theorem c1_b2_cleanup_invariant_witness :
    (runB2 sampleImages sampleAudioUrl sampleB2Env).releaseCalls = 1 ∧
    (runB2 sampleImages sampleAudioUrl sampleB2Env).files = [] ∧
    (runB2 sampleImages sampleAudioUrl sampleB2Env).dirs = [] ∧
    (runB2 sampleImages sampleAudioUrl sampleB2Env).dirsCreated
      = [sampleB2Env.tmpDir] :=
  c1_b2_cleanup_invariant sampleImages sampleAudioUrl sampleB2Env
    (by with_unfolding_all rfl) (by with_unfolding_all rfl)

/-! ### Claim C3 -/

/-- Claim C3: a request whose `images` field is the empty array, or whose
`audioUrl` field is absent, is answered with status 400 and an error message
by both variants, and the run creates no workspace directory, creates no file,
and enters no pipeline stage. -/
theorem c3_validation_rejects (dirname : String) (images audioUrl : Option Json)
    (envB : B2Env) (envL : LocalEnv)
    (h : images = some (.arr []) ∨ audioUrl = none) :
    Rejected400 (runB2 images audioUrl envB) ∧
    Rejected400 (runLocal dirname images audioUrl envL) := by
  rcases h with rfl | rfl
  · simp [runB2, runLocal, imagesInvalid, Rejected400]
  · cases himg : imagesInvalid images <;>
      simp [runB2, runLocal, himg, jsonTruthy, Rejected400]

/-- Claim C3 witness: the rejection at a concrete empty-`images` request. -/
theorem c3_validation_rejects_witness :
    Rejected400 (runB2 (some (.arr [])) sampleAudioUrl sampleB2Env) ∧
    Rejected400 (runLocal "/app" (some (.arr [])) sampleAudioUrl sampleLocalEnv) :=
  c3_validation_rejects "/app" (some (.arr [])) sampleAudioUrl sampleB2Env
    sampleLocalEnv (Or.inl rfl)

/-! ### Claim C10 -/

/-- Claim C10: a request whose `images` field is present but not an array
(string, number, object, null, boolean) is rejected with status 400 by both
variants, with no workspace, no files and no pipeline stage — the
`Array.isArray` test rejects every non-array shape. -/
theorem c10_nonarray_rejected (dirname : String) (j : Json) (audioUrl : Option Json)
    (envB : B2Env) (envL : LocalEnv) (h : j.isArray = false) :
    Rejected400 (runB2 (some j) audioUrl envB) ∧
    Rejected400 (runLocal dirname (some j) audioUrl envL) := by
  have hinv : imagesInvalid (some j) = true := by
    cases j <;> first | rfl | simp [Json.isArray] at h
  simp [runB2, runLocal, hinv, Rejected400]

/-- Claim C10 witness: the rejection at a concrete string-valued `images`. -/
theorem c10_nonarray_rejected_witness :
    Rejected400 (runB2 (some (.str "http://x/a.jpg")) sampleAudioUrl sampleB2Env) ∧
    Rejected400 (runLocal "/app" (some (.str "http://x/a.jpg")) sampleAudioUrl
      sampleLocalEnv) :=
  c10_nonarray_rejected "/app" (.str "http://x/a.jpg") sampleAudioUrl sampleB2Env
    sampleLocalEnv rfl

/-! ### Claim C4 -/

/-- Claim C4: in the B2 variant, when every stage up to encoding succeeds and
the encoder subprocess exits with a non-zero code `c`, the endpoint responds
500 with the encode-stage error message carrying the exit code
(`ffmpeg exited c`), and the workspace directory and its files are removed
(exactly one cleanup) before the response. -/
theorem c4_encode_failure (images audioUrl : Option Json) (env : B2Env) (c : Nat)
    (h₁ : imagesInvalid images = false) (h₂ : jsonTruthy audioUrl = true)
    (haf : env.audioFetch = .ok)
    (hif : (fetchLoop ((List.range (imagesLength images)).map
        (fun i => pathJoin env.tmpDir (imgName i))) env.imageFetch).2 = none)
    (hd : ∃ d, getAudioDuration env.probeSpawnError env.probeExitCode env.probeStderr
        = .resolved d)
    (hsp : env.encodeSpawnFails = false)
    (hc : env.encodeExitCode = c) (hc0 : c ≠ 0) :
    (runB2 images audioUrl env).response.status = 500 ∧
    (runB2 images audioUrl env).response.errorMsg
      = some ("ffmpeg exited " ++ natRepr c) ∧
    (runB2 images audioUrl env).releaseCalls = 1 ∧
    (runB2 images audioUrl env).files = [] ∧
    (runB2 images audioUrl env).dirs = [] := by
  obtain ⟨d, hd⟩ := hd
  have hout : (b2Pipeline (imagesLength images) env).outcome
      = .error ("ffmpeg exited " ++ natRepr c) := by
    simp [b2Pipeline, haf, hif, hd, hsp, hc, hc0]
  have hclean := runB2_valid_clean images audioUrl env h₁ h₂
  refine ⟨?_, ?_, hclean.1, hclean.2.1, hclean.2.2.1⟩ <;>
    simp [runB2, h₁, h₂, hout]

/-- Claim C4 witness: the encode-failure behaviour at a concrete run whose
encoder exits 1. -/
theorem c4_encode_failure_witness :
    (runB2 sampleImages sampleAudioUrl c4Env).response.status = 500 ∧
    (runB2 sampleImages sampleAudioUrl c4Env).response.errorMsg
      = some ("ffmpeg exited " ++ natRepr 1) ∧
    (runB2 sampleImages sampleAudioUrl c4Env).releaseCalls = 1 ∧
    (runB2 sampleImages sampleAudioUrl c4Env).files = [] ∧
    (runB2 sampleImages sampleAudioUrl c4Env).dirs = [] :=
  c4_encode_failure sampleImages sampleAudioUrl c4Env 1
    (by with_unfolding_all rfl) (by with_unfolding_all rfl)
    (by with_unfolding_all rfl) (by with_unfolding_all rfl)
    ⟨10, by with_unfolding_all rfl⟩
    (by with_unfolding_all rfl) (by with_unfolding_all rfl) (by decide)

/-! ### Claim C2 -/

/-- Claim C2: for every non-empty image list and probed duration `D`, the
concat plan has exactly one entry per image, every entry's display duration is
`D / N` rounded to three decimals, the entry durations sum to `D` within one
precision unit (0.001s) per entry, and the B2 list text is exactly the
rendering of those entries. -/
theorem c2_concat_plan (imgs : List String) (D : ℚ) (h : imgs ≠ []) :
    (concatPlan imgs D).length = imgs.length ∧
    (∀ e ∈ concatPlan imgs D, e.2 = toFixed3 (D / imgs.length)) ∧
    |((concatPlan imgs D).map Prod.snd).sum - D| ≤ (imgs.length : ℚ) * (1 / 1000) ∧
    b2ListTxt imgs D = String.intercalate "\n" ((concatPlan imgs D).map (fun e =>
      "file " ++ squote ++ e.1 ++ squote ++ "\n" ++ "duration " ++ toFixed3Str e.2)) := by
  have hn0 : imgs.length ≠ 0 := by
    intro hl
    exact h (List.length_eq_zero.mp hl)
  have hn : (imgs.length : ℚ) ≠ 0 := Nat.cast_ne_zero.mpr hn0
  refine ⟨by simp [concatPlan], ?_, ?_, ?_⟩
  · intro e he
    rcases List.mem_map.mp he with ⟨f, _, rfl⟩
    rfl
  · have hmap : (concatPlan imgs D).map Prod.snd
        = imgs.map (fun _ => toFixed3 (D / imgs.length)) := by
      simp only [concatPlan, List.map_map]
      rfl
    rw [hmap, list_map_const_sum]
    have hD : (imgs.length : ℚ) * (D / imgs.length) = D := by
      field_simp
    calc |(imgs.length : ℚ) * toFixed3 (D / imgs.length) - D|
        = |(imgs.length : ℚ) * (toFixed3 (D / imgs.length) - D / imgs.length)| := by
          rw [mul_sub, hD]
      _ = |(imgs.length : ℚ)| * |toFixed3 (D / imgs.length) - D / imgs.length| :=
          abs_mul _ _
      _ = (imgs.length : ℚ) * |toFixed3 (D / imgs.length) - D / imgs.length| := by
          rw [abs_of_nonneg (Nat.cast_nonneg _)]
      _ ≤ (imgs.length : ℚ) * (1 / 1000) :=
          mul_le_mul_of_nonneg_left (abs_toFixed3_sub _) (Nat.cast_nonneg _)
  · simp only [b2ListTxt, concatPlan, List.map_map]
    congr 1
    apply List.map_congr_left
    intro f _
    simp [Function.comp, toFixed3Str_toFixed3]

/-- Claim C2 witness: the plan properties at two images and duration 10. -/
theorem c2_concat_plan_witness :
    (concatPlan ["a.jpg", "b.jpg"] 10).length = (["a.jpg", "b.jpg"] : List String).length ∧
    (∀ e ∈ concatPlan ["a.jpg", "b.jpg"] 10,
      e.2 = toFixed3 (10 / (["a.jpg", "b.jpg"] : List String).length)) ∧
    |((concatPlan ["a.jpg", "b.jpg"] 10).map Prod.snd).sum - 10|
      ≤ ((["a.jpg", "b.jpg"] : List String).length : ℚ) * (1 / 1000) ∧
    b2ListTxt ["a.jpg", "b.jpg"] 10
      = String.intercalate "\n" ((concatPlan ["a.jpg", "b.jpg"] 10).map (fun e =>
          "file " ++ squote ++ e.1 ++ squote ++ "\n" ++ "duration "
            ++ toFixed3Str e.2)) :=
  c2_concat_plan ["a.jpg", "b.jpg"] 10 (by decide)

/-! ### Claim C5 -/

/-- Claim C5: the probe resolves by scanning the diagnostic text for the first
`Duration: HH:MM:SS.ff` marker and computing `hours*3600 + minutes*60 +
seconds`; it fails exactly when the marker is absent or the subprocess could
not be started, and the result does not depend on the subprocess exit code —
a non-zero exit with the marker present still resolves. -/
theorem c5_probe_contract (stderr : String) (code code' : Nat) (m : String) :
    getAudioDuration (some m) code stderr = .rejectedSpawn m ∧
    getAudioDuration none code stderr = getAudioDuration none code' stderr ∧
    (getAudioDuration none code stderr = .rejectedParse ↔ ¬ HasMarker stderr) ∧
    (∀ h mi s, findDuration stderr = some (h, mi, s) →
      getAudioDuration none code stderr = .resolved (h * 3600 + mi * 60 + s)) := by
  refine ⟨rfl, rfl, ?_, ?_⟩
  · unfold getAudioDuration
    cases hf : findDuration stderr with
    | some r =>
      obtain ⟨h, mi, s⟩ := r
      have hm : HasMarker stderr := by
        apply (findDurationAux_isSome_iff stderr.data).mp
        rw [show findDurationAux stderr.data = findDuration stderr from rfl, hf]
        rfl
      simp [hm]
    | none =>
      have hm : ¬ HasMarker stderr := by
        intro hm
        have hs := (findDurationAux_isSome_iff stderr.data).mpr hm
        rw [show findDurationAux stderr.data = findDuration stderr from rfl, hf] at hs
        simp at hs
      simp [hm]
  · intro h mi s hf
    simp [getAudioDuration, hf]

/-- Claim C5 witness: the probe resolves 65.04 seconds from a concrete
diagnostic text even though the subprocess exited 1. -/
theorem c5_probe_contract_witness :
    getAudioDuration none 1 sampleStderr = .resolved (0 * 3600 + 1 * 60 + 126 / 25) :=
  (c5_probe_contract sampleStderr 1 0 "spawn ENOENT").2.2.2 0 1 (126 / 25)
    (by with_unfolding_all rfl)

/-! ### Claim C6 -/

/-- Claim C6 counterexample: in the local variant two distinct requests (here:
a one-image and a two-image request) write the very same audio path — the
per-request path sets are not disjoint, refuting the claim for that variant. -/
theorem c6_local_counterexample :
    pathJoin "/app" "audio.mp3" ∈ localRequestPaths "/app" 1 ∧
    pathJoin "/app" "audio.mp3" ∈ localRequestPaths "/app" 2 := by
  with_unfolding_all decide

/-- Claim C6 (amended): in the B2 variant, two requests whose `mkdtempSync`
directories differ (the function's contract: a unique directory per call)
write disjoint path sets — every working file lives directly under the
request's own temporary directory.  The local variant uses fixed shared paths
(see the counterexample). -/
theorem c6_b2_paths_disjoint (t₁ t₂ : String) (n₁ n₂ : Nat) (hne : t₁ ≠ t₂)
    (p : String) (hp : p ∈ b2RequestPaths t₁ n₁) : p ∉ b2RequestPaths t₂ n₂ := by
  intro hq
  obtain ⟨f₁, hf₁, rfl⟩ := mem_b2RequestPaths hp
  obtain ⟨f₂, hf₂, heq⟩ := mem_b2RequestPaths hq
  exact hne (pathJoin_inj hf₁ hf₂ heq).1

/-- Claim C6 witness: disjointness at two concrete temporary directories. -/
theorem c6_b2_paths_disjoint_witness :
    pathJoin "/tmp/video-abc123" "audio.mp3" ∉ b2RequestPaths "/tmp/video-xyz789" 2 :=
  c6_b2_paths_disjoint "/tmp/video-abc123" "/tmp/video-xyz789" 2 2 (by decide)
    (pathJoin "/tmp/video-abc123" "audio.mp3") (by with_unfolding_all decide)

/-! ### Claim C7 -/

theorem digitChar_ne_dash {d : Nat} (hd : d < 10) : Nat.digitChar d ≠ '-' := by
  interval_cases d <;> decide

theorem natRepr_no_dash (n : Nat) : '-' ∉ (natRepr n).data := by
  intro hm
  rcases natDigits_all n '-' hm with ⟨d, hd, hc⟩
  exact digitChar_ne_dash hd hc.symm

theorem pad3_no_dash (n : Nat) : '-' ∉ (pad3 n).data := by
  intro hm
  rw [pad3, String.data_append] at hm
  rcases List.mem_append.mp hm with hm | hm
  · split at hm
    · simp at hm
    · split at hm <;> simp at hm
  · exact natRepr_no_dash n hm

theorem toFixed3Str_no_dash (q : ℚ) : '-' ∉ (toFixed3Str q).data := by
  intro hm
  simp only [toFixed3Str] at hm
  rw [String.data_append, String.data_append] at hm
  rcases List.mem_append.mp hm with hm | hm
  · rcases List.mem_append.mp hm with hm | hm
    · exact natRepr_no_dash _ hm
    · simp at hm
  · exact pad3_no_dash _ hm

/-- Claim C7 counterexample: at a concrete invocation, the B2 variant's fixed
encoder argument list carries no `-preset` flag and no `-threads` flag at all
— there is no fast/low-latency preset and no single-thread budget in the
contract, refuting that part of the claim. -/
theorem c7_no_preset_counterexample :
    "-preset" ∉ b2FfmpegArgs (pathJoin "/tmp/video-abc123" "ffmpeg_input.txt")
      (pathJoin "/tmp/video-abc123" "audio.mp3")
      (pathJoin "/tmp/video-abc123" "output.mp4") 10 ∧
    "-threads" ∉ b2FfmpegArgs (pathJoin "/tmp/video-abc123" "ffmpeg_input.txt")
      (pathJoin "/tmp/video-abc123" "audio.mp3")
      (pathJoin "/tmp/video-abc123" "output.mp4") 10 := by
  with_unfolding_all decide

/-- Claim C7 (amended): the B2 variant's encoder invocation is a fixed
argument contract that scales each frame up to cover 1080×1920 preserving
aspect and crops to exactly 1080×1920 portrait (`-vf` at positions 9-10),
truncates the output to the probed duration rendered at three decimals (`-t`
at positions 17-18), and encodes with libx264/aac/yuv420p — but it passes no
`-preset` flag and no `-threads` flag, whatever the workspace directory and
duration are. -/
theorem c7_b2_encoder_args (t : String) (d : ℚ) :
    (b2FfmpegArgs (pathJoin t "ffmpeg_input.txt") (pathJoin t "audio.mp3")
        (pathJoin t "output.mp4") d).get? 9 = some "-vf" ∧
    (b2FfmpegArgs (pathJoin t "ffmpeg_input.txt") (pathJoin t "audio.mp3")
        (pathJoin t "output.mp4") d).get? 10
      = some "scale=1080:1920:force_original_aspect_ratio=increase,crop=1080:1920" ∧
    (b2FfmpegArgs (pathJoin t "ffmpeg_input.txt") (pathJoin t "audio.mp3")
        (pathJoin t "output.mp4") d).get? 17 = some "-t" ∧
    (b2FfmpegArgs (pathJoin t "ffmpeg_input.txt") (pathJoin t "audio.mp3")
        (pathJoin t "output.mp4") d).get? 18 = some (toFixed3Str d) ∧
    "-preset" ∉ b2FfmpegArgs (pathJoin t "ffmpeg_input.txt")
      (pathJoin t "audio.mp3") (pathJoin t "output.mp4") d ∧
    "-threads" ∉ b2FfmpegArgs (pathJoin t "ffmpeg_input.txt")
      (pathJoin t "audio.mp3") (pathJoin t "output.mp4") d := by
  refine ⟨rfl, rfl, rfl, rfl, ?_, ?_⟩ <;>
  · intro hmem
    simp only [b2FfmpegArgs, scaleCropFilter, List.mem_cons, List.not_mem_nil,
      or_false] at hmem
    rcases hmem with h|h|h|h|h|h|h|h|h|h|h|h|h|h|h|h|h|h|h|h <;>
      first
        | exact absurd h (by decide)
        | exact pathJoin_ne _ _ (by decide) h.symm
        | exact (toFixed3Str_no_dash d) (h ▸ (by decide : '-' ∈ "-preset".data))
        | exact (toFixed3Str_no_dash d) (h ▸ (by decide : '-' ∈ "-threads".data))

/-! ### Claim C8 -/

/-- Claim C8: on every fully successful B2 run, the streamed upload request
carries exactly the headers for the namespaced fresh object name (URI-encoded
`videos/<uuid>.mp4`), the content type, the exact byte length and the
precomputed SHA-1 digest, and the 200 response's URL is the download base,
`"/file/"`, the bucket name, `"/"`, and the object name concatenated — with
the object name living under the `videos/` prefix. -/
theorem c8_upload_contract (images audioUrl : Option Json) (env : B2Env)
    (h₁ : imagesInvalid images = false) (h₂ : jsonTruthy audioUrl = true)
    (haf : env.audioFetch = .ok)
    (hif : (fetchLoop ((List.range (imagesLength images)).map
        (fun i => pathJoin env.tmpDir (imgName i))) env.imageFetch).2 = none)
    (hd : ∃ d, getAudioDuration env.probeSpawnError env.probeExitCode env.probeStderr
        = .resolved d)
    (hsp : env.encodeSpawnFails = false) (hex : env.encodeExitCode = 0)
    (hau : env.authorizeOk = true) (hgu : env.getUploadUrlOk = true)
    (hh : env.hashOk = true) (hup : env.uploadOk = true) :
    (runB2 images audioUrl env).response.status = 200 ∧
    (runB2 images audioUrl env).response.videoUrl
      = some (env.downloadUrl ++ "/file/" ++ env.bucketName ++ "/"
          ++ ("videos/" ++ env.uuid ++ ".mp4")) ∧
    (runB2 images audioUrl env).uploadHeaders
      = some [("Authorization", env.uploadAuthToken),
              ("X-Bz-File-Name", encodeURIComponent ("videos/" ++ env.uuid ++ ".mp4")),
              ("Content-Type", "b2/x-auto"),
              ("Content-Length", natRepr env.outputSize),
              ("X-Bz-Content-Sha1", env.sha1)] ∧
    leadsWith "videos/".data (b2FileName env.uuid).data = true := by
  obtain ⟨d, hd⟩ := hd
  have hph : b2UploadPhase env = ([.upload, .hash],
      some (b2UploadHeaders env.uploadAuthToken (b2FileName env.uuid) env.sha1
        env.outputSize),
      .ok (b2PublicUrl env.downloadUrl env.bucketName (b2FileName env.uuid))) := by
    simp [b2UploadPhase, hau, hgu, hh, hup]
  have hout : (b2Pipeline (imagesLength images) env).outcome
      = .ok (b2PublicUrl env.downloadUrl env.bucketName (b2FileName env.uuid)) := by
    simp [b2Pipeline, haf, hif, hd, hsp, hex, hph]
  have hhd : (b2Pipeline (imagesLength images) env).uploadHeaders
      = some (b2UploadHeaders env.uploadAuthToken (b2FileName env.uuid) env.sha1
        env.outputSize) := by
    simp [b2Pipeline, haf, hif, hd, hsp, hex, hph]
  have hpre : (b2FileName env.uuid).data
      = "videos/".data ++ (env.uuid.data ++ ".mp4".data) := by
    rw [b2FileName, String.data_append, String.data_append, List.append_assoc]
  refine ⟨?_, ?_, ?_, ?_⟩
  · simp [runB2, h₁, h₂, hout]
  · simp [runB2, h₁, h₂, hout, b2PublicUrl, b2FileName]
  · cases ho : (b2Pipeline (imagesLength images) env).outcome <;>
      simp [runB2, h₁, h₂, ho, hhd, b2UploadHeaders, b2FileName]
  · rw [hpre]
    exact leadsWith_append _ _

/-- Claim C8 witness: the upload contract at a concrete successful run. -/
theorem c8_upload_contract_witness :
    (runB2 sampleImages sampleAudioUrl sampleB2Env).response.status = 200 ∧
    (runB2 sampleImages sampleAudioUrl sampleB2Env).response.videoUrl
      = some (sampleB2Env.downloadUrl ++ "/file/" ++ sampleB2Env.bucketName ++ "/"
          ++ ("videos/" ++ sampleB2Env.uuid ++ ".mp4")) ∧
    (runB2 sampleImages sampleAudioUrl sampleB2Env).uploadHeaders
      = some [("Authorization", sampleB2Env.uploadAuthToken),
              ("X-Bz-File-Name",
                encodeURIComponent ("videos/" ++ sampleB2Env.uuid ++ ".mp4")),
              ("Content-Type", "b2/x-auto"),
              ("Content-Length", natRepr sampleB2Env.outputSize),
              ("X-Bz-Content-Sha1", sampleB2Env.sha1)] ∧
    leadsWith "videos/".data (b2FileName sampleB2Env.uuid).data = true :=
  c8_upload_contract sampleImages sampleAudioUrl sampleB2Env
    (by with_unfolding_all rfl) (by with_unfolding_all rfl)
    (by with_unfolding_all rfl) (by with_unfolding_all rfl)
    ⟨10, by with_unfolding_all rfl⟩
    (by with_unfolding_all rfl) (by with_unfolding_all rfl)
    (by with_unfolding_all rfl) (by with_unfolding_all rfl)
    (by with_unfolding_all rfl) (by with_unfolding_all rfl)

/-! ### Claim C9 -/

/-- Claim C9 counterexample: on the same image list and duration the two
variants' concat-list builders produce different text — the local variant
appends a trailing still-frame entry for the last image, the B2 variant does
not. -/
theorem c9_counterexample :
    localListTxt ["img0.jpg"] 10 ≠ b2ListTxt ["img0.jpg"] 10 := by
  with_unfolding_all decide

/-- Claim C9 (amended): the two builders agree on all per-image
file/duration entries, and differ exactly by the local variant's trailing
duplicate entry for the final image: the local text is the B2 text followed by
one more `file '<last>'` line. -/
theorem c9_trailing_entry (imgs : List String) (d : ℚ) :
    localListTxt imgs d
      = b2ListTxt imgs d ++ "\n" ++ "file " ++ squote
        ++ imgs.getD (imgs.length - 1) "undefined" ++ squote ++ "\n" := rfl

end FfmpegApi
